import Mathlib

/-!
Verification development for the crypto price-sampling and trend-analysis
repository (sources: `binance_p2p.py`, `cripto_data.py`, `bitcoin_value.py`,
`analisis_tendencias.py`).

Python floats are modelled as exact rationals (`ℚ`); the float value NaN,
which in the source arises from pandas statistics over empty/singleton
groups and from missing dataframe cells, is modelled explicitly as `none`
in `Option ℚ`.  Timestamps (`datetime` strings parsed with
`pd.to_datetime`) are modelled as seconds since an arbitrary epoch (`ℕ`);
flooring to the hour is integer division by 3600.  External effects
(HTTP calls, MongoDB, Telegram, `time.sleep`) are modelled by passing the
outcome of each external call as an explicit argument.
-/

namespace CriptoData

/-! ## Generic numeric helpers -/

/-- Arithmetic mean of a list of rationals, as a total function.  Callers
below only apply it to nonempty lists (the empty case `0/0 = 0` is never
reached on the modelled paths). -/
def promedioLista (vs : List ℚ) : ℚ := vs.sum / (vs.length : ℚ)

/-- Mean in the NaN-aware style of `pandas.Series.mean`: `none` (NaN) on an
empty list. -/
def media (vs : List ℚ) : Option ℚ :=
  if vs.isEmpty then none else some (promedioLista vs)

/-- Sample variance with `ddof = 1`, the default of `pandas` `std` (squared);
`none` (NaN) when fewer than 2 values are present. -/
def varianzaMuestral (vs : List ℚ) : Option ℚ :=
  if vs.length < 2 then none
  else
    some (((vs.map (fun v => (v - promedioLista vs) ^ 2)).sum) / ((vs.length : ℚ) - 1))

/-- Square root on rationals, exact on rationals whose numerator and
denominator are perfect squares.  The source computes standard deviations
with a floating-point square root; every concrete input appearing in the
theorems below has a perfect-square variance, where this function agrees
with the real square root.  (No theorem below depends on the value of
`sqrtQ` outside perfect squares: the statements about volatility are about
which buckets enter the average, and both sides of each comparison use the
same `sqrtQ`.) -/
def sqrtQ (q : ℚ) : ℚ := (Nat.sqrt q.num.toNat : ℚ) / (Nat.sqrt q.den : ℚ)

/-- Sample standard deviation of a list (pandas `std`, `ddof = 1`):
NaN (`none`) on fewer than 2 values. -/
def desviacion (vs : List ℚ) : Option ℚ := (varianzaMuestral vs).map sqrtQ

/-- Python 3 `round` to an integer: round half to even (banker's rounding).
The source rounds exact decimal values at every point a theorem below
evaluates it, so the binary-float artefacts of CPython `round` do not
arise. -/
def roundHalfEven (q : ℚ) : ℤ :=
  if q - ⌊q⌋ < 1 / 2 then ⌊q⌋
  else if 1 / 2 < q - ⌊q⌋ then ⌊q⌋ + 1
  else if Even ⌊q⌋ then ⌊q⌋ else ⌊q⌋ + 1

/-- Python `round(q, n)` on our rational model of floats. -/
def roundTo (n : ℕ) (q : ℚ) : ℚ := (roundHalfEven (q * 10 ^ n) : ℚ) / 10 ^ n

/-- Maximum of a list of rationals, `0` on the empty list (the source writes
`max(xs) if xs else 0`). -/
def maxLista : List ℚ → ℚ
  | [] => 0
  | a :: t => t.foldl max a

/-- Collects a list of `Option`s into an `Option` list: `none` as soon as
one entry is `none` (one NaN poisons the vector). -/
def allSome {α : Type} : List (Option α) → Option (List α)
  | [] => some []
  | none :: _ => none
  | some a :: t => (allSome t).map (fun l => a :: l)

/-! ## `binance_p2p.py` -/

/-- One normalized P2P offer, the dictionary built per advertisement in
`obtener_ofertas_p2p_binance` (source lines 88–98). -/
structure Oferta where
  precio : ℚ
  cantidad_disponible : ℚ
  limite_min : ℚ
  limite_max : ℚ
  metodos_pago : List String
  comerciante : String
  completadas : ℕ
  tasa_completadas : ℚ
  verificado : Bool
deriving Repr, DecidableEq

/-- Offer with a given price and neutral values for the remaining fields
(used for concrete inputs; only `precio` is ever read by the code under
verification). -/
def ofertaDePrecio (p : ℚ) : Oferta := ⟨p, 0, 0, 0, [], "", 0, 0, true⟩

/-- Insertion step for sorting offers by a boolean "comes before or ties"
relation. -/
def insertarOferta (antes : Oferta → Oferta → Bool) (x : Oferta) :
    List Oferta → List Oferta
  | [] => [x]
  | y :: ys => if antes y x then y :: insertarOferta antes x ys
               else x :: y :: ys

/-- Insertion sort of offers. -/
def ordenarLista (antes : Oferta → Oferta → Bool) : List Oferta → List Oferta
  | [] => []
  | x :: xs => insertarOferta antes x (ordenarLista antes xs)

/-- Sort step of `obtener_ofertas_p2p_binance` (source lines 104–109):
ascending by price for BUY, descending for SELL. -/
def ordenarOfertas (tradeType : String) (l : List Oferta) : List Oferta :=
  if tradeType = "BUY" then ordenarLista (fun a b => a.precio ≤ b.precio) l
  else ordenarLista (fun a b => b.precio ≤ a.precio) l

/-- Retry loop of `obtener_ofertas_p2p_binance` (source lines 70–130).
The external POST to the Binance endpoint is modelled by `fuente`: attempt
number `k` (0-based) yields `some` parsed offer list on a 200 response and
`none` on a transport error or non-success status.  `restantes` is
`max_retries - retry_count`; `hechos` counts calls already made.  Returns
the result — `none` models the `(None, None)` sentinel after exhausting
all attempts — together with the total number of calls made to the
source. -/
def intentosBinance (fuente : ℕ → Option (List Oferta)) (tradeType : String) :
    ℕ → ℕ → Option (List Oferta) × ℕ
  | 0, hechos => (none, hechos)
  | restantes + 1, hechos =>
    match fuente hechos with
    | some ofertas => (some (ordenarOfertas tradeType ofertas), hechos + 1)
    | none => intentosBinance fuente tradeType restantes (hechos + 1)

/-- Model of `obtener_ofertas_p2p_binance`: runs up to `maxRetries`
attempts against the source (with a fixed delay between attempts, which has
no observable effect in this model) and returns the sorted offers of the
first successful attempt, or the error sentinel `none` when every attempt
failed, paired with the number of calls made. -/
def obtener_ofertas_p2p_binance (fuente : ℕ → Option (List Oferta))
    (tradeType : String) (maxRetries : ℕ) : Option (List Oferta) × ℕ :=
  intentosBinance fuente tradeType maxRetries 0

/-- Model of `calcular_precio_promedio` (source lines 132–151): mean of the
`precio` column over the first `numOfertas` rows (or all rows if fewer),
rounded to 2 decimals; `0.0` when the dataframe is `None` or empty.
When `numOfertas = 0` and the list is nonempty the source produces NaN
(mean of an empty series); that corner is modelled as `0` here and every
theorem below that touches the mean assumes `1 ≤ numOfertas`. -/
def calcular_precio_promedio (df : Option (List Oferta)) (numOfertas : ℕ) : ℚ :=
  match df with
  | none => 0
  | some l =>
    if l.length = 0 then 0
    else roundTo 2 (promedioLista ((l.take numOfertas).map Oferta.precio))

/-! ## `cripto_data.py` -/

/-- The sample record built by `obtener_datos_cripto` (source lines 88–94). -/
structure DatosCripto where
  datetime : String
  btc2usd : ℚ
  bol2usdt : ℚ
  usdt2bol : ℚ
  bol2btc : ℚ
deriving Repr, DecidableEq

/-- Model of `obtener_datos_cripto` (source lines 28–96).  The three
external fetches are passed as arguments: `bitcoinUsd` is the CoinGecko
reference price (`none` on failure, substituted by `0.0`), `ofertasBuy`
and `ofertasSell` are the already-retried results of the two
`obtener_ofertas_p2p_binance` calls (`none` = retries exhausted).
If either Binance fetch failed the whole sample is aborted (`none`). -/
def obtener_datos_cripto (timestamp : String) (bitcoinUsd : Option ℚ)
    (ofertasBuy ofertasSell : Option (List Oferta)) : Option DatosCripto :=
  let btc : ℚ := bitcoinUsd.getD 0
  match ofertasBuy with
  | none => none
  | some buy =>
    match ofertasSell with
    | none => none
    | some sell =>
      let bobUsdt := calcular_precio_promedio (some buy) 10
      let usdtBob := calcular_precio_promedio (some sell) 10
      let bobBtc : ℚ := if 0 < btc then bobUsdt / btc else 0
      some ⟨timestamp, roundTo 2 btc, bobUsdt, usdtBob, roundTo 8 bobBtc⟩

/-! ## `analisis_tendencias.py` -/

/-- One persisted price record, as read back from storage: a parsed
timestamp (seconds) plus the numeric columns.  A record may omit a column;
`pd.DataFrame` then fills the cell with NaN, which lookups below surface as
`none`. -/
structure Registro where
  datetime : ℕ
  campos : List (String × ℚ)
deriving Repr, DecidableEq

/-- Hour bucket of a record: `df.datetime.dt.floor h` (source line 155). -/
def horaDe (r : Registro) : ℕ := r.datetime / 3600

/-- Value of a column in one record, `none` when the record lacks it
(a NaN cell in the dataframe). -/
def valorDe (campo : String) (r : Registro) : Option ℚ :=
  r.campos.lookup campo

/-- Whether `campo` is among `df.columns`: `pd.DataFrame` of a list of
dicts takes the union of the keys, so the column exists as soon as some
record carries the field (source line 146). -/
def columnaExiste (datos : List Registro) (campo : String) : Bool :=
  datos.any (fun r => (valorDe campo r).isSome)

/-- Model of `calcular_variacion_porcentual` (source lines 101–114). -/
def calcular_variacion_porcentual (valorInicial valorFinal : ℚ) : ℚ :=
  if valorInicial = 0 then 0
  else (valorFinal - valorInicial) / valorInicial * 100

/-- Insertion step of an ascending sort on hour keys. -/
def insertarHora (x : ℕ) : List ℕ → List ℕ
  | [] => [x]
  | y :: ys => if x ≤ y then x :: y :: ys else y :: insertarHora x ys

/-- Ascending insertion sort on hour keys (pandas `groupby` sorts the group
keys). -/
def ordenarHoras (l : List ℕ) : List ℕ := l.foldr insertarHora []

/-- The distinct hour buckets of the data, ascending — the index of
`stats_por_hora` produced by `groupby` on source line 156. -/
def horasDistintas (datos : List Registro) : List ℕ :=
  ordenarHoras ((datos.map horaDe).dedup)

/-- Values of `campo` present in the records of hour bucket `h` (pandas
aggregations skip NaN cells). -/
def valoresEnHora (datos : List Registro) (campo : String) (h : ℕ) : List ℚ :=
  (datos.filter (fun r => horaDe r = h)).filterMap (valorDe campo)

/-- The `mean` column of `stats_por_hora`, one entry per bucket in
ascending hour order; `none` is a NaN mean (bucket whose cells are all
NaN). -/
def mediasPorHora (datos : List Registro) (campo : String) : List (Option ℚ) :=
  (horasDistintas datos).map (fun h => media (valoresEnHora datos campo h))

/-- The `std` column of `stats_por_hora` (`ddof = 1`): `none` is the NaN of
a bucket with fewer than two values. -/
def desviacionesPorHora (datos : List Registro) (campo : String) :
    List (Option ℚ) :=
  (horasDistintas datos).map (fun h => desviacion (valoresEnHora datos campo h))

/-- First value of the analyzed column: `df.campo.iloc 0` (source line
150); `none` when the first record lacks the field. -/
def primer_valor (datos : List Registro) (campo : String) : Option ℚ :=
  datos.head?.bind (valorDe campo)

/-- Last value of the analyzed column (source line 151). -/
def ultimo_valor (datos : List Registro) (campo : String) : Option ℚ :=
  datos.getLast?.bind (valorDe campo)

/-- Total end-to-end percentage variation (source line 152); NaN in, NaN
out. -/
def variacion_total (datos : List Registro) (campo : String) : Option ℚ :=
  match primer_valor datos campo, ultimo_valor datos campo with
  | some a, some b => some (calcular_variacion_porcentual a b)
  | _, _ => none

/-- Mean volatility: `stats_por_hora.std.mean()` (source line 171).
Pandas `mean` skips NaN entries, so single-sample buckets are dropped from
both numerator and denominator; the result is NaN only when every bucket
has fewer than two values. -/
def volatilidad_promedio (datos : List Registro) (campo : String) : Option ℚ :=
  media ((desviacionesPorHora datos campo).filterMap id)

/-- Absolute percentage variations between the means of consecutive hour
buckets (source lines 174–179); a NaN mean makes the pair NaN. -/
def variaciones_entre_horas (datos : List Registro) (campo : String) :
    List (Option ℚ) :=
  let ms := mediasPorHora datos campo
  (ms.zip ms.tail).map (fun p =>
    match p.1, p.2 with
    | some a, some b => some |calcular_variacion_porcentual a b|
    | _, _ => none)

/-- Maximum inter-hour variation (source line 181): `0` when there are
fewer than two buckets.  Python `max` over a float list containing NaN has
an order-dependent result; that case (`none` here) is outside the domain of
every claim below, which pin the analyzed field to be present in all
records. -/
def variacion_maxima_entre_horas (datos : List Registro) (campo : String) :
    Option ℚ :=
  let vs := variaciones_entre_horas datos campo
  if vs.isEmpty then some 0
  else (allSome vs).map maxLista

/-- NaN-aware `t ≤ x` on floats: any comparison against NaN is `False` in
Python. -/
def leNaN (t : ℚ) (x : Option ℚ) : Bool :=
  match x with
  | none => false
  | some v => decide (t ≤ v)

/-- NaN-aware `t < x`. -/
def ltNaN (t : ℚ) (x : Option ℚ) : Bool :=
  match x with
  | none => false
  | some v => decide (t < v)

/-- The significance verdict (source line 184):
`abs variacion_total >= umbral or variacion_maxima_entre_horas >= umbral`. -/
def hay_tendencia (datos : List Registro) (campo : String) (umbral : ℚ) : Bool :=
  leNaN umbral ((variacion_total datos campo).map (fun v => |v|)) ||
  leNaN umbral (variacion_maxima_entre_horas datos campo)

/-- Number of hour buckets, `len stats_por_hora`. -/
def numBuckets (datos : List Registro) : ℕ := (horasDistintas datos).length

/-- Closed-form ordinary-least-squares slope of degree 1 over the points
`(i, y i)` for `i = 0, …, n-1` — the value `np.polyfit(x, y, 1)` computes
on source line 164 (the spec's design notes direct reimplementing the
regression exactly as this closed form). -/
def pendienteOLS (n : ℕ) (y : ℕ → ℚ) : ℚ :=
  ((n : ℚ) * ∑ i ∈ Finset.range n, (i : ℚ) * y i -
      (∑ i ∈ Finset.range n, (i : ℚ)) * ∑ i ∈ Finset.range n, y i) /
    ((n : ℚ) * ∑ i ∈ Finset.range n, (i : ℚ) ^ 2 -
      (∑ i ∈ Finset.range n, (i : ℚ)) ^ 2)

/-- The fitted slope (source lines 162–167): `0` when a single bucket
exists; `none` when some bucket mean is NaN (there `np.polyfit` has no
well-defined numeric result — that case is outside the domain of every
claim below). -/
def pendiente (datos : List Registro) (campo : String) : Option ℚ :=
  if 1 < numBuckets datos then
    match allSome (mediasPorHora datos campo) with
    | some ys => some (pendienteOLS ys.length (fun i => ys.getD i 0))
    | none => none
  else some 0

/-- The slope-based direction string (source lines 163–168). -/
def direccion_tendencia (datos : List Registro) (campo : String) : String :=
  if 1 < numBuckets datos then
    match pendiente datos campo with
    | some p => if 0 < p then "alcista" else "bajista"
    | none => "bajista"
  else "neutral"

/-- The `detalles` dictionary (source lines 198–204 and 206–226).  The
`price_info` entry is a human-readable rendering of first/last value and
volatility; float-to-string formatting is not modelled. -/
structure Detalles where
  asset : String
  trend_type : String
  variation : Option ℚ
  recommendation : String
deriving Repr, DecidableEq

/-- Asset label lookup (source line 199). -/
def assetDe (campo : String) : String :=
  if campo = "bol2usdt" then "USDT/BOB"
  else if campo = "usdt2bol" then "BOB/USDT"
  else "BTC/USD"

/-- Trend type in the details: the sign of the total variation alone
(source line 200); Python `NaN > 0` is `False`, giving `BAJISTA`. -/
def trendTypeDe (datos : List Registro) (campo : String) : String :=
  if ltNaN 0 (variacion_total datos campo) then "ALCISTA" else "BAJISTA"

/-- Recommendation text (source lines 206–226): set only when the verdict
is significant, keyed on the sign of the total variation and the field. -/
def recomendacionDe (datos : List Registro) (campo : String) (umbral : ℚ) :
    String :=
  if hay_tendencia datos campo umbral then
    if ltNaN 0 (variacion_total datos campo) then
      if campo = "bol2usdt" then "Posible oportunidad de VENTA de USDT (precio alto)"
      else if campo = "btc2usd" then "Posible oportunidad de VENTA de BTC (precio alto)"
      else ""
    else
      if campo = "bol2usdt" then "Posible oportunidad de COMPRA de USDT (precio bajo)"
      else if campo = "btc2usd" then "Posible oportunidad de COMPRA de BTC (precio bajo)"
      else ""
  else ""

/-- The assembled details (source lines 198–226). -/
def detallesDe (datos : List Registro) (campo : String) (umbral : ℚ) : Detalles :=
  ⟨assetDe campo, trendTypeDe datos campo, variacion_total datos campo,
    recomendacionDe datos campo umbral⟩

/-- Return value of `detectar_tendencia_significativa`: the source returns
a 3-tuple `(False, 0, mensaje)` on the two early exits (source lines
136–137 and 146–147) and a 4-tuple
`(hay_tendencia, variacion_total, mensaje, detalles)` otherwise (source
line 243).  The informative `mensaje` string interpolates floats; its text
is modelled only for the early exits, where it is a plain literal. -/
inductive Resultado where
  | insuficiente (mensaje : String)
  | completo (hayTendencia : Bool) (variacionTotal : Option ℚ)
      (mensaje : String) (detalles : Detalles)
deriving Repr, DecidableEq

/-- Model of `detectar_tendencia_significativa` (source lines 116–243).
Notification dispatch (source lines 228–241) only logs failures and does
not alter the returned value, so it is not modelled. -/
def detectar_tendencia_significativa (datos : List Registro) (campo : String)
    (umbral : ℚ) : Resultado :=
  if datos.length < 2 then
    .insuficiente "Datos insuficientes para análisis"
  else if ¬ columnaExiste datos campo then
    .insuficiente ("El campo " ++ campo ++ " no existe en los datos")
  else
    .completo (hay_tendencia datos campo umbral) (variacion_total datos campo)
      "" (detallesDe datos campo umbral)

/-- First component of the returned tuple: the early exits carry a literal
`False`. -/
def Resultado.hayTendenciaDe : Resultado → Bool
  | .insuficiente _ => false
  | .completo h _ _ _ => h

/-- Second component of the returned tuple: the early exits carry a
literal `0`. -/
def Resultado.variacionDe : Resultado → Option ℚ
  | .insuficiente _ => some 0
  | .completo _ v _ _ => v

/-- Number of components of the returned Python tuple. -/
def Resultado.numComponentes : Resultado → ℕ
  | .insuficiente _ => 3
  | .completo _ _ _ _ => 4

/-- Details component when present. -/
def Resultado.detallesDe? : Resultado → Option Detalles
  | .insuficiente _ => none
  | .completo _ _ _ d => some d

/-- Python 4-way tuple unpacking
`a, b, c, d = detectar_tendencia_significativa ...` as performed by
`analizar_tendencias` (source lines 273–278): succeeds only on a 4-tuple;
on a 3-tuple it raises `ValueError` (modelled as `none`). -/
def desempaquetar4 : Resultado → Option (Bool × Option ℚ × String × Detalles)
  | .insuficiente _ => none
  | .completo h v m d => some (h, v, m, d)

/-! ## Spec-side restatements

The definitions in this section follow the specification's wording for the
quantities the analyzer reports, independently of the NaN bookkeeping of
the dataframe pipeline above; the refinement theorems below compare the two
sides. -/

/-- End-to-end percentage variation as the spec words it: computed from the
first and last sample's field value (`0` on fewer than 1 sample; the value
of a record lacking the field is irrelevant under the presence hypotheses
of the theorems). -/
def specVariacionTotal (datos : List Registro) (campo : String) : ℚ :=
  match datos.head?, datos.getLast? with
  | some a, some b =>
      calcular_variacion_porcentual ((valorDe campo a).getD 0) ((valorDe campo b).getD 0)
  | _, _ => 0

/-- Per-bucket means as the spec words them: plain rational means, one per
distinct hour in ascending order. -/
def specMediasPorHora (datos : List Registro) (campo : String) : List ℚ :=
  (horasDistintas datos).map (fun h => promedioLista (valoresEnHora datos campo h))

/-- Maximum absolute percentage variation between consecutive bucket means
as the spec words it (`0` when fewer than 2 buckets). -/
def specMaxVariacion (datos : List Registro) (campo : String) : ℚ :=
  maxLista (((specMediasPorHora datos campo).zip (specMediasPorHora datos campo).tail).map
    (fun p => |calcular_variacion_porcentual p.1 p.2|))

/-- The spec's significance predicate: the end-to-end variation or the
sharpest inter-window variation meets the threshold. -/
def specSignificativo (datos : List Registro) (campo : String) (umbral : ℚ) : Bool :=
  decide (umbral ≤ |specVariacionTotal datos campo|) ||
  decide (umbral ≤ specMaxVariacion datos campo)

/-- Average volatility as claim C2 words it: the mean over ALL buckets of
the per-bucket standard deviation, a single-sample bucket contributing a
standard deviation of `0` to that mean. -/
def volatilidadSpecTodas (datos : List Registro) (campo : String) : ℚ :=
  promedioLista ((horasDistintas datos).map
    (fun h => (desviacion (valoresEnHora datos campo h)).getD 0))

/-- Average volatility restricted to the buckets holding at least two
values: mean of their standard deviations, `none` when no such bucket
exists. -/
def volatilidadSpecMultiples (datos : List Registro) (campo : String) : Option ℚ :=
  media (((horasDistintas datos).filter
      (fun h => 2 ≤ (valoresEnHora datos campo h).length)).map
    (fun h => sqrtQ ((varianzaMuestral (valoresEnHora datos campo h)).getD 0)))

/-! ## Concrete inputs used by witnesses and counterexamples -/

/-- Record carrying a single field, placed at the start of hour `h`. -/
def registroHorario (campo : String) (h : ℕ) (v : ℚ) : Registro :=
  ⟨h * 3600, [(campo, v)]⟩

/-- The spec's worked example: samples `[100, 100, 103]` in three
consecutive hourly buckets. -/
def datosEjC1 : List Registro :=
  [registroHorario "bol2usdt" 0 100, registroHorario "bol2usdt" 1 100,
   registroHorario "bol2usdt" 2 103]

/-- Series with one three-sample bucket (standard deviation 1) and one
single-sample bucket (standard deviation NaN). -/
def datosEjC2 : List Registro :=
  [⟨0, [("bol2usdt", 99)]⟩, ⟨10, [("bol2usdt", 100)]⟩,
   ⟨20, [("bol2usdt", 101)]⟩, ⟨3600, [("bol2usdt", 105)]⟩]

/-- Series whose end-to-end variation is positive while the fitted slope is
negative: values `[100, 200, 90, 101]` in four consecutive hourly
buckets. -/
def datosEjC10 : List Registro :=
  [registroHorario "bol2usdt" 0 100, registroHorario "bol2usdt" 1 200,
   registroHorario "bol2usdt" 2 90, registroHorario "bol2usdt" 3 101]

/-- Series with one sample per hour: the sample of index `k` is taken at
instant `t k` and carries value `y k`. -/
def datosHorarios (n : ℕ) (t : ℕ → ℕ) (y : ℕ → ℚ) (campo : String) :
    List Registro :=
  (List.range n).map (fun k => ⟨t k, [(campo, y k)]⟩)

/-- Offer source that fails its first two attempts and succeeds on the
third. -/
def fuenteEjemplo : ℕ → Option (List Oferta) :=
  fun k => if k < 2 then none else some [ofertaDePrecio 7]

/-! ## Helper lemmas on rounding -/

lemma roundHalfEven_intCast (m : ℤ) : roundHalfEven (m : ℚ) = m := by
  norm_num [roundHalfEven]

lemma roundTo_intCast (n : ℕ) (m : ℤ) : roundTo n ((m : ℚ)) = m := by
  rw [roundTo]
  have h : (m : ℚ) * 10 ^ n = ((m * 10 ^ n : ℤ) : ℚ) := by
    push_cast
    ring
  rw [h, roundHalfEven_intCast]
  push_cast
  have h10 : ((10 : ℚ)) ^ n ≠ 0 := by positivity
  field_simp

/-! ## Helper lemmas on the retry loop -/

lemma intentos_fst_none_iff (fuente : ℕ → Option (List Oferta)) (tt : String) :
    ∀ restantes hechos,
      (intentosBinance fuente tt restantes hechos).1 = none ↔
        ∀ k, hechos ≤ k → k < hechos + restantes → fuente k = none := by
  intro restantes
  induction restantes with
  | zero =>
    intro hechos
    constructor
    · intro _ k hk1 hk2
      omega
    · intro _
      rfl
  | succ r ih =>
    intro hechos
    cases hfa : fuente hechos with
    | some l =>
      simp only [intentosBinance, hfa]
      constructor
      · intro h
        exact absurd h (by simp)
      · intro h
        have := h hechos le_rfl (by omega)
        rw [hfa] at this
        exact absurd this (by simp)
    | none =>
      simp only [intentosBinance, hfa, ih (hechos + 1)]
      constructor
      · intro h k hk1 hk2
        rcases eq_or_lt_of_le hk1 with rfl | hlt
        · exact hfa
        · exact h k hlt (by omega)
      · intro h k hk1 hk2
        exact h k (by omega) (by omega)

lemma intentos_exito (fuente : ℕ → Option (List Oferta)) (tt : String) :
    ∀ restantes hechos k l, hechos ≤ k → k < hechos + restantes →
      (∀ j, hechos ≤ j → j < k → fuente j = none) → fuente k = some l →
      intentosBinance fuente tt restantes hechos =
        (some (ordenarOfertas tt l), k + 1) := by
  intro restantes
  induction restantes with
  | zero =>
    intro hechos k l hk1 hk2
    omega
  | succ r ih =>
    intro hechos k l hk1 hk2 hfail hsucc
    rcases eq_or_lt_of_le hk1 with rfl | hlt
    · simp only [intentosBinance, hsucc]
    · have h0 : fuente hechos = none := hfail hechos le_rfl hlt
      simp only [intentosBinance, h0]
      exact ih (hechos + 1) k l hlt (by omega)
        (fun j hj1 hj2 => hfail j (by omega) hj2) hsucc

/-! ## Helper lemmas on lists and the bucket pipeline -/

lemma allSome_map_some {α : Type} (l : List α) : allSome (l.map some) = some l := by
  induction l with
  | nil => rfl
  | cons a t ih => simp [allSome, ih]

lemma mem_insertarHora {x a : ℕ} : ∀ {l : List ℕ}, x ∈ insertarHora a l ↔ x = a ∨ x ∈ l := by
  intro l
  induction l with
  | nil => simp [insertarHora]
  | cons y ys ih =>
    by_cases h : a ≤ y
    · simp [insertarHora, h]
    · simp only [insertarHora, if_neg h, List.mem_cons, ih]
      tauto

lemma mem_ordenarHoras {x : ℕ} : ∀ {l : List ℕ}, x ∈ ordenarHoras l ↔ x ∈ l := by
  intro l
  induction l with
  | nil => simp [ordenarHoras]
  | cons a t ih =>
    show x ∈ insertarHora a (ordenarHoras t) ↔ x ∈ a :: t
    rw [mem_insertarHora, ih, List.mem_cons]

lemma exists_registro_of_mem_horas {datos : List Registro} {h : ℕ}
    (hm : h ∈ horasDistintas datos) : ∃ r ∈ datos, horaDe r = h := by
  rw [horasDistintas, mem_ordenarHoras, List.mem_dedup, List.mem_map] at hm
  obtain ⟨r, hr, hrh⟩ := hm
  exact ⟨r, hr, hrh⟩

lemma valoresEnHora_ne_nil {datos : List Registro} {campo : String} {h : ℕ}
    (h2 : ∀ r ∈ datos, (valorDe campo r).isSome = true)
    (hm : h ∈ horasDistintas datos) : valoresEnHora datos campo h ≠ [] := by
  obtain ⟨r, hr, hrh⟩ := exists_registro_of_mem_horas hm
  obtain ⟨v, hv⟩ := Option.isSome_iff_exists.mp (h2 r hr)
  have hvm : v ∈ valoresEnHora datos campo h := by
    rw [valoresEnHora, List.mem_filterMap]
    exact ⟨r, List.mem_filter.mpr ⟨hr, by simp [hrh]⟩, hv⟩
  exact List.ne_nil_of_mem hvm

lemma medias_eq_spec {datos : List Registro} {campo : String}
    (h2 : ∀ r ∈ datos, (valorDe campo r).isSome = true) :
    mediasPorHora datos campo = (specMediasPorHora datos campo).map some := by
  rw [mediasPorHora, specMediasPorHora, List.map_map]
  apply List.map_congr_left
  intro h hm
  have hne := valoresEnHora_ne_nil h2 hm
  simp [media, Function.comp, hne]

lemma variacion_total_eq_spec {datos : List Registro} {campo : String}
    (h1 : 2 ≤ datos.length)
    (h2 : ∀ r ∈ datos, (valorDe campo r).isSome = true) :
    variacion_total datos campo = some (specVariacionTotal datos campo) := by
  cases datos with
  | nil => simp at h1
  | cons a t =>
    rcases List.eq_nil_or_concat (a :: t) with hL | ⟨L, b, hL⟩
    · simp at hL
    · have hhead : (a :: t).head? = some a := rfl
      have hlast : (a :: t).getLast? = some b := by
        rw [hL, List.concat_eq_append]
        exact List.getLast?_concat L
      have ha : a ∈ a :: t := by simp
      have hb : b ∈ a :: t := by
        rw [hL, List.concat_eq_append]
        simp
      obtain ⟨va, hva⟩ := Option.isSome_iff_exists.mp (h2 a ha)
      obtain ⟨vb, hvb⟩ := Option.isSome_iff_exists.mp (h2 b hb)
      simp [variacion_total, primer_valor, ultimo_valor, specVariacionTotal,
        hhead, hlast, hva, hvb]

lemma variaciones_eq_spec {datos : List Registro} {campo : String}
    (h2 : ∀ r ∈ datos, (valorDe campo r).isSome = true) :
    variaciones_entre_horas datos campo =
      (((specMediasPorHora datos campo).zip (specMediasPorHora datos campo).tail).map
        (fun p => |calcular_variacion_porcentual p.1 p.2|)).map some := by
  rw [variaciones_entre_horas, medias_eq_spec h2, ← List.map_tail, List.zip_map,
    List.map_map, List.map_map]
  apply List.map_congr_left
  intro p _
  rcases p with ⟨x, y⟩
  rfl

lemma variacion_maxima_eq_spec {datos : List Registro} {campo : String}
    (h2 : ∀ r ∈ datos, (valorDe campo r).isSome = true) :
    variacion_maxima_entre_horas datos campo = some (specMaxVariacion datos campo) := by
  rw [variacion_maxima_entre_horas, variaciones_eq_spec h2, specMaxVariacion]
  cases hl : ((specMediasPorHora datos campo).zip
      (specMediasPorHora datos campo).tail).map
        (fun p => |calcular_variacion_porcentual p.1 p.2|) with
  | nil => simp [maxLista]
  | cons x xs =>
    have ha := allSome_map_some (x :: xs)
    simp only [List.map_cons] at ha
    simp [ha]

lemma filterMap_id_map_eq {α : Type} (f : α → Option ℚ) (p : α → Bool) (g : α → ℚ)
    (hfp : ∀ a, (f a).isSome = p a) (hfg : ∀ a, p a = true → f a = some (g a)) :
    ∀ l : List α, (l.map f).filterMap id = (l.filter p).map g := by
  intro l
  induction l with
  | nil => rfl
  | cons a t ih =>
    by_cases hpa : p a = true
    · have hfa := hfg a hpa
      simp [List.filterMap_cons, hfa, List.filter_cons, hpa, ih]
    · have hpa2 : p a = false := by
        cases hpb : p a
        · rfl
        · exact absurd hpb hpa
      have hfa : f a = none := by
        have hs := hfp a
        rw [hpa2] at hs
        exact Option.not_isSome_iff_eq_none.mp (by simp [hs])
      simp [List.filterMap_cons, hfa, List.filter_cons, hpa2, ih]

/-! ## Claim theorems -/

/-- C4: for all values, `calcular_variacion_porcentual initial final` equals
`(final - initial) / initial * 100` whenever `initial` is nonzero, and
equals `0` whenever `initial` is `0`. -/
theorem variacion_porcentual_correcta (valorInicial valorFinal : ℚ) :
    (valorInicial ≠ 0 →
      calcular_variacion_porcentual valorInicial valorFinal =
        (valorFinal - valorInicial) / valorInicial * 100) ∧
    calcular_variacion_porcentual 0 valorFinal = 0 := by
  constructor
  · intro h
    simp [calcular_variacion_porcentual, h]
  · simp [calcular_variacion_porcentual]

/-- Witness for C4 at `initial = 100`, `final = 103` and `initial = 0`. -/
theorem variacion_porcentual_correcta_witness :
    calcular_variacion_porcentual 100 103 = 3 ∧
    calcular_variacion_porcentual 0 7 = 0 := by
  constructor
  · rw [(variacion_porcentual_correcta 100 103).1 (by norm_num)]
    norm_num
  · exact (variacion_porcentual_correcta 100 7).2

/-- C3: on fewer than 2 samples, or when the requested field is absent from
the data, the analyzer returns `significant = false` and variation `0`
(the early returns on source lines 136–137 and 146–147); being a total
Lean function, the model also witnesses that no exception is raised on
these inputs. -/
theorem analizador_datos_insuficientes (datos : List Registro) (campo : String)
    (umbral : ℚ)
    (h : datos.length < 2 ∨ columnaExiste datos campo = false) :
    (detectar_tendencia_significativa datos campo umbral).hayTendenciaDe = false ∧
    (detectar_tendencia_significativa datos campo umbral).variacionDe = some 0 := by
  rcases h with h | h
  · simp [detectar_tendencia_significativa, h,
      Resultado.hayTendenciaDe, Resultado.variacionDe]
  · by_cases h2 : datos.length < 2
    · simp [detectar_tendencia_significativa, h2,
        Resultado.hayTendenciaDe, Resultado.variacionDe]
    · simp [detectar_tendencia_significativa, h2, h,
        Resultado.hayTendenciaDe, Resultado.variacionDe]

/-- Witness for C3 on the empty series and on a 2-sample series lacking the
field. -/
theorem analizador_datos_insuficientes_witness :
    ((detectar_tendencia_significativa [] "bol2usdt" 2).hayTendenciaDe = false ∧
     (detectar_tendencia_significativa [] "bol2usdt" 2).variacionDe = some 0) ∧
    ((detectar_tendencia_significativa datosEjC1 "btc2usd" 2).hayTendenciaDe = false ∧
     (detectar_tendencia_significativa datosEjC1 "btc2usd" 2).variacionDe = some 0) :=
  ⟨analizador_datos_insuficientes [] "bol2usdt" 2 (Or.inl (by decide)),
   analizador_datos_insuficientes datosEjC1 "btc2usd" 2 (Or.inr (by decide))⟩

/-- C9: the analyzer's return value has exactly 3 components on the
insufficient-data and missing-field paths and exactly 4 components
otherwise, so 4-way tuple unpacking (as `analizar_tendencias` performs)
fails exactly on the 3-component results. -/
theorem analizador_aridad (datos : List Registro) (campo : String) (umbral : ℚ) :
    ((datos.length < 2 ∨ columnaExiste datos campo = false) →
      (detectar_tendencia_significativa datos campo umbral).numComponentes = 3 ∧
      desempaquetar4 (detectar_tendencia_significativa datos campo umbral) = none) ∧
    (2 ≤ datos.length → columnaExiste datos campo = true →
      (detectar_tendencia_significativa datos campo umbral).numComponentes = 4 ∧
      (desempaquetar4 (detectar_tendencia_significativa datos campo umbral)).isSome = true) := by
  constructor
  · intro h
    rcases h with h | h
    · simp [detectar_tendencia_significativa, h, Resultado.numComponentes, desempaquetar4]
    · by_cases h2 : datos.length < 2
      · simp [detectar_tendencia_significativa, h2, Resultado.numComponentes, desempaquetar4]
      · simp [detectar_tendencia_significativa, h2, h, Resultado.numComponentes, desempaquetar4]
  · intro h1 h2
    have h3 : ¬ datos.length < 2 := by omega
    simp [detectar_tendencia_significativa, h3, h2, Resultado.numComponentes, desempaquetar4]

/-- Witness for C9 on a 1-sample series (3 components, unpacking fails) and
on the spec's 3-sample series (4 components, unpacking succeeds). -/
theorem analizador_aridad_witness :
    ((detectar_tendencia_significativa [registroHorario "bol2usdt" 0 100] "bol2usdt" 2).numComponentes = 3 ∧
     desempaquetar4 (detectar_tendencia_significativa [registroHorario "bol2usdt" 0 100] "bol2usdt" 2) = none) ∧
    ((detectar_tendencia_significativa datosEjC1 "bol2usdt" 2).numComponentes = 4 ∧
     (desempaquetar4 (detectar_tendencia_significativa datosEjC1 "bol2usdt" 2)).isSome = true) :=
  ⟨(analizador_aridad [registroHorario "bol2usdt" 0 100] "bol2usdt" 2).1 (Or.inl (by decide)),
   (analizador_aridad datosEjC1 "bol2usdt" 2).2 (by decide) (by decide)⟩

/-- C5: if either side's offer fetch exhausted its retries, the sample
builder returns nothing, regardless of the reference-price outcome; a
reference-price failure alone keeps the sample and substitutes `0`. -/
theorem muestra_descartada_sin_ofertas (timestamp : String) (btc : Option ℚ)
    (ofertasBuy ofertasSell : Option (List Oferta)) :
    ((ofertasBuy = none ∨ ofertasSell = none) →
      obtener_datos_cripto timestamp btc ofertasBuy ofertasSell = none) ∧
    (∀ buy sell, ofertasBuy = some buy → ofertasSell = some sell →
      obtener_datos_cripto timestamp none ofertasBuy ofertasSell =
        some ⟨timestamp, 0, calcular_precio_promedio (some buy) 10,
          calcular_precio_promedio (some sell) 10, 0⟩) := by
  constructor
  · intro h
    rcases h with h | h
    · simp [obtener_datos_cripto, h]
    · cases ofertasBuy with
      | none => simp [obtener_datos_cripto]
      | some buy => simp [obtener_datos_cripto, h]
  · intro buy sell hb hs
    subst hb
    subst hs
    have hr0 : roundTo 2 ((0 : ℚ)) = 0 := by
      norm_num [roundTo, roundHalfEven]
    have hr8 : roundTo 8 ((0 : ℚ)) = 0 := by
      norm_num [roundTo, roundHalfEven]
    simp [obtener_datos_cripto, Option.getD, hr0, hr8]

/-- Witness for C5: a failed BUY fetch aborts the sample even with a good
reference price; a failed reference price alone yields a sample with
`btc2usd = 0`. -/
theorem muestra_descartada_sin_ofertas_witness :
    obtener_datos_cripto "t" (some 50000) none (some [ofertaDePrecio 20]) = none ∧
    obtener_datos_cripto "t" none (some [ofertaDePrecio 10]) (some [ofertaDePrecio 20]) =
      some ⟨"t", 0, 10, 20, 0⟩ := by
  constructor
  · exact (muestra_descartada_sin_ofertas "t" (some 50000) none
      (some [ofertaDePrecio 20])).1 (Or.inl rfl)
  · have h := (muestra_descartada_sin_ofertas "t" none (some [ofertaDePrecio 10])
      (some [ofertaDePrecio 20])).2 [ofertaDePrecio 10] [ofertaDePrecio 20] rfl rfl
    rw [h]
    have h10 : calcular_precio_promedio (some [ofertaDePrecio 10]) 10 = 10 := by
      simp [calcular_precio_promedio, ofertaDePrecio, promedioLista]
      exact_mod_cast roundTo_intCast 2 10
    have h20 : calcular_precio_promedio (some [ofertaDePrecio 20]) 10 = 20 := by
      simp [calcular_precio_promedio, ofertaDePrecio, promedioLista]
      exact_mod_cast roundTo_intCast 2 20
    rw [h10, h20]

/-- C6: the offer fetch returns the error sentinel exactly when all
`max_retries` attempts fail, and when the attempts numbered `0, …, k-1`
fail and attempt `k` succeeds (within the budget) it returns that
attempt's sorted offers having called the source exactly `k + 1` times.
The fixed inter-attempt delay (`time.sleep(retry_delay)`, source line 125)
has no observable effect in this model of the returned value. -/
theorem reintentos_binance (fuente : ℕ → Option (List Oferta)) (tradeType : String)
    (maxRetries : ℕ) :
    ((obtener_ofertas_p2p_binance fuente tradeType maxRetries).1 = none ↔
      ∀ k, k < maxRetries → fuente k = none) ∧
    (∀ k l, k < maxRetries → (∀ j, j < k → fuente j = none) → fuente k = some l →
      obtener_ofertas_p2p_binance fuente tradeType maxRetries =
        (some (ordenarOfertas tradeType l), k + 1)) := by
  constructor
  · rw [obtener_ofertas_p2p_binance, intentos_fst_none_iff]
    constructor
    · intro h k hk
      exact h k (Nat.zero_le k) (by omega)
    · intro h k _ hk
      exact h k (by omega)
  · intro k l hk hfail hsucc
    exact intentos_exito fuente tradeType maxRetries 0 k l (Nat.zero_le k)
      (by omega) (fun j _ hj => hfail j hj) hsucc

/-- Witness for C6: the source failing attempts 0 and 1 and succeeding on
attempt 2, with `max_retries = 3`, yields the successful (sorted) result
after exactly 3 calls; and a source failing all attempts yields the
sentinel. -/
theorem reintentos_binance_witness :
    obtener_ofertas_p2p_binance fuenteEjemplo "BUY" 3 = (some [ofertaDePrecio 7], 3) ∧
    (obtener_ofertas_p2p_binance (fun _ => none) "BUY" 3).1 = none := by
  constructor
  · have h := (reintentos_binance fuenteEjemplo "BUY" 3).2 2 [ofertaDePrecio 7]
      (by norm_num) (fun j hj => by
        interval_cases j <;> rfl) (by rfl)
    rw [h]
    rfl
  · exact ((reintentos_binance (fun _ => none) "BUY" 3).1).2 (fun k _ => rfl)

/-! ## Helper lemmas for the regression slope -/

lemma insertarHora_of_le (a : ℕ) (l : List ℕ) (h : ∀ x ∈ l, a ≤ x) :
    insertarHora a l = a :: l := by
  cases l with
  | nil => rfl
  | cons y ys => rw [insertarHora, if_pos (h y (by simp))]

lemma ordenarHoras_sorted (l : List ℕ) (h : l.Pairwise (· ≤ ·)) :
    ordenarHoras l = l := by
  induction l with
  | nil => rfl
  | cons a t ih =>
    rw [List.pairwise_cons] at h
    show insertarHora a (ordenarHoras t) = a :: t
    rw [ih h.2, insertarHora_of_le a t h.1]

lemma range_filter_eq (n k : ℕ) (hk : k < n) :
    (List.range n).filter (fun j => decide (j = k)) = [k] := by
  induction n with
  | zero => omega
  | succ m ih =>
    rw [List.range_succ, List.filter_append]
    by_cases hkm : k < m
    · rw [ih hkm]
      have hne : ¬ m = k := by omega
      simp [hne]
    · have hk2 : k = m := by omega
      subst hk2
      have hnil : (List.range k).filter (fun j => decide (j = k)) = [] := by
        rw [List.filter_eq_nil_iff]
        intro a ha
        have := List.mem_range.mp ha
        simp
        omega
      rw [hnil]
      simp

lemma getD_map_range (n : ℕ) (y : ℕ → ℚ) (i : ℕ) (h : i < n) :
    ((List.range n).map y).getD i 0 = y i := by
  rw [List.getD_eq_getElem?_getD, List.getElem?_map, List.getElem?_range h]
  rfl

lemma suma_doble_pendiente (n : ℕ) (y : ℕ → ℚ) :
    ∑ i ∈ Finset.range n, ∑ j ∈ Finset.range n, ((i : ℚ) - j) * (y i - y j) =
      2 * ((n : ℚ) * ∑ i ∈ Finset.range n, (i : ℚ) * y i -
        (∑ i ∈ Finset.range n, (i : ℚ)) * ∑ i ∈ Finset.range n, y i) := by
  have hexp : ∀ i j : ℕ, ((i : ℚ) - j) * (y i - y j) =
      (i : ℚ) * y i - (i : ℚ) * y j - (j : ℚ) * y i + (j : ℚ) * y j := by
    intro i j
    ring
  simp_rw [hexp, Finset.sum_add_distrib, Finset.sum_sub_distrib, ← Finset.mul_sum,
    ← Finset.sum_mul, Finset.sum_const, Finset.card_range, nsmul_eq_mul]
  have e1 : ∑ x ∈ Finset.range n, (x : ℚ) * ((n : ℚ) * y x) =
      (n : ℚ) * ∑ x ∈ Finset.range n, (x : ℚ) * y x := by
    rw [Finset.mul_sum]
    apply Finset.sum_congr rfl
    intro i _
    ring
  have e2 : ∑ x ∈ Finset.range n, (∑ i ∈ Finset.range n, (i : ℚ)) * y x =
      (∑ i ∈ Finset.range n, (i : ℚ)) * ∑ x ∈ Finset.range n, y x := by
    rw [Finset.mul_sum]
  rw [e1, e2]
  ring

lemma numerador_pendiente_pos (n : ℕ) (hn2 : 2 ≤ n) (y : ℕ → ℚ)
    (hy : ∀ i j, i < j → j < n → y i < y j) :
    0 < (n : ℚ) * ∑ i ∈ Finset.range n, (i : ℚ) * y i -
      (∑ i ∈ Finset.range n, (i : ℚ)) * ∑ i ∈ Finset.range n, y i := by
  have hterm : ∀ i, i < n → ∀ j, j < n → 0 ≤ ((i : ℚ) - j) * (y i - y j) := by
    intro i hi j hj
    rcases lt_trichotomy i j with h | h | h
    · have h1 : (i : ℚ) - j < 0 := by
        have hc : (i : ℚ) < j := by exact_mod_cast h
        linarith
      have h2 : y i - y j < 0 := by
        have := hy i j h hj
        linarith
      exact le_of_lt (mul_pos_of_neg_of_neg h1 h2)
    · subst h
      simp
    · have h1 : (0 : ℚ) < (i : ℚ) - j := by
        have hc : (j : ℚ) < i := by exact_mod_cast h
        linarith
      have h2 : (0 : ℚ) < y i - y j := by
        have := hy j i h hi
        linarith
      exact le_of_lt (mul_pos h1 h2)
  have hpos : 0 < ∑ i ∈ Finset.range n, ∑ j ∈ Finset.range n,
      ((i : ℚ) - j) * (y i - y j) := by
    apply Finset.sum_pos'
    · intro i hi
      exact Finset.sum_nonneg
        (fun j hj => hterm i (Finset.mem_range.mp hi) j (Finset.mem_range.mp hj))
    · refine ⟨1, Finset.mem_range.mpr (by omega), ?_⟩
      apply Finset.sum_pos'
      · intro j hj
        exact hterm 1 (by omega) j (Finset.mem_range.mp hj)
      · refine ⟨0, Finset.mem_range.mpr (by omega), ?_⟩
        have hy01 := hy 0 1 (by omega) (by omega)
        have hfac : ((1 : ℕ) : ℚ) - ((0 : ℕ) : ℚ) = 1 := by norm_num
        nlinarith [hy01]
  rw [suma_doble_pendiente] at hpos
  linarith

lemma denominador_pendiente_pos (n : ℕ) (hn2 : 2 ≤ n) :
    0 < (n : ℚ) * ∑ i ∈ Finset.range n, (i : ℚ) ^ 2 -
      (∑ i ∈ Finset.range n, (i : ℚ)) ^ 2 := by
  have h := numerador_pendiente_pos n hn2 (fun i => (i : ℚ))
    (fun i j hij _ => by
      show (i : ℚ) < (j : ℚ)
      exact_mod_cast hij)
  have h2 : ∑ i ∈ Finset.range n, (i : ℚ) ^ 2 =
      ∑ i ∈ Finset.range n, (i : ℚ) * i := by
    apply Finset.sum_congr rfl
    intro i _
    ring
  rw [h2, sq]
  exact h

lemma pendienteOLS_pos (n : ℕ) (hn2 : 2 ≤ n) (y : ℕ → ℚ)
    (hy : ∀ i j, i < j → j < n → y i < y j) : 0 < pendienteOLS n y :=
  div_pos (numerador_pendiente_pos n hn2 y hy) (denominador_pendiente_pos n hn2)

lemma map_hora_datosHorarios (n h0 : ℕ) (t : ℕ → ℕ) (y : ℕ → ℚ) (campo : String)
    (ht : ∀ k, k < n → t k / 3600 = h0 + k) :
    (datosHorarios n t y campo).map horaDe = List.range' h0 n := by
  rw [datosHorarios, List.map_map, List.range'_eq_map_range]
  apply List.map_congr_left
  intro k hk
  have := ht k (List.mem_range.mp hk)
  simpa [horaDe, Function.comp] using this

lemma horas_datosHorarios (n h0 : ℕ) (t : ℕ → ℕ) (y : ℕ → ℚ) (campo : String)
    (ht : ∀ k, k < n → t k / 3600 = h0 + k) :
    horasDistintas (datosHorarios n t y campo) = List.range' h0 n := by
  rw [horasDistintas, map_hora_datosHorarios n h0 t y campo ht,
    List.dedup_eq_self.mpr (List.nodup_range' h0 n),
    ordenarHoras_sorted _ (List.pairwise_le_range' h0 n)]

lemma valores_datosHorarios (n h0 : ℕ) (t : ℕ → ℕ) (y : ℕ → ℚ) (campo : String)
    (ht : ∀ k, k < n → t k / 3600 = h0 + k) (k : ℕ) (hk : k < n) :
    valoresEnHora (datosHorarios n t y campo) campo (h0 + k) = [y k] := by
  rw [valoresEnHora, datosHorarios, List.filter_map]
  have hfil : (List.range n).filter
      ((fun r => decide (horaDe r = h0 + k)) ∘
        (fun j => (⟨t j, [(campo, y j)]⟩ : Registro))) = [k] := by
    rw [List.filter_congr (q := fun j => decide (j = k)) ?_]
    · exact range_filter_eq n k hk
    · intro j hj
      have hj2 := ht j (List.mem_range.mp hj)
      simp only [Function.comp, horaDe, hj2]
      exact decide_eq_decide.mpr (by omega)
  rw [hfil]
  simp [valorDe, List.lookup]

lemma medias_datosHorarios (n h0 : ℕ) (t : ℕ → ℕ) (y : ℕ → ℚ) (campo : String)
    (ht : ∀ k, k < n → t k / 3600 = h0 + k) :
    mediasPorHora (datosHorarios n t y campo) campo =
      ((List.range n).map y).map some := by
  rw [mediasPorHora, horas_datosHorarios n h0 t y campo ht,
    List.range'_eq_map_range, List.map_map, List.map_map]
  apply List.map_congr_left
  intro k hk
  have hk2 := List.mem_range.mp hk
  simp only [Function.comp]
  rw [valores_datosHorarios n h0 t y campo ht k hk2]
  simp [media, promedioLista]

lemma columnaExiste_de_presencia {datos : List Registro} {campo : String}
    (h1 : datos ≠ [])
    (h2 : ∀ r ∈ datos, (valorDe campo r).isSome = true) :
    columnaExiste datos campo = true := by
  cases datos with
  | nil => exact absurd rfl h1
  | cons a t =>
    rw [columnaExiste, List.any_eq_true]
    exact ⟨a, by simp, h2 a (by simp)⟩

/-- C1: for every ordered series with at least 2 samples all carrying the
analyzed field and every threshold, the significance flag is true exactly
when the absolute end-to-end percentage variation meets the threshold or
the maximum absolute variation between consecutive hourly-bucket means
does; on the spec's example `[100, 100, 103]` at threshold 2 the total
variation is 3 and the verdict is significant. -/
theorem significancia_por_umbral (datos : List Registro) (campo : String) (umbral : ℚ)
    (h1 : 2 ≤ datos.length)
    (h2 : ∀ r ∈ datos, (valorDe campo r).isSome = true) :
    ((detectar_tendencia_significativa datos campo umbral).hayTendenciaDe = true ↔
      (umbral ≤ |specVariacionTotal datos campo| ∨
       umbral ≤ specMaxVariacion datos campo)) ∧
    (detectar_tendencia_significativa datosEjC1 "bol2usdt" 2).variacionDe = some 3 ∧
    (detectar_tendencia_significativa datosEjC1 "bol2usdt" 2).hayTendenciaDe = true := by
  have hno2 : ¬ datos.length < 2 := by omega
  have hcol := columnaExiste_de_presencia (by
    cases datos
    · simp at h1
    · simp) h2
  have e0 : ¬ datosEjC1.length < 2 := by decide
  have e1 : columnaExiste datosEjC1 "bol2usdt" = true := by decide
  have ha : primer_valor datosEjC1 "bol2usdt" = some 100 := rfl
  have hb : ultimo_valor datosEjC1 "bol2usdt" = some 103 := rfl
  have e2 : variacion_total datosEjC1 "bol2usdt" = some 3 := by
    simp only [variacion_total, ha, hb]
    norm_num [calcular_variacion_porcentual]
  have e3 : hay_tendencia datosEjC1 "bol2usdt" 2 = true := by
    rw [hay_tendencia, e2]
    simp only [Option.map_some', leNaN, Bool.or_eq_true, decide_eq_true_eq]
    left
    norm_num
  have edet : detectar_tendencia_significativa datosEjC1 "bol2usdt" 2 =
      .completo (hay_tendencia datosEjC1 "bol2usdt" 2)
        (variacion_total datosEjC1 "bol2usdt") "" (detallesDe datosEjC1 "bol2usdt" 2) := by
    rw [detectar_tendencia_significativa, if_neg e0, if_neg (by simp [e1])]
  refine ⟨?_, ?_, ?_⟩
  · rw [detectar_tendencia_significativa, if_neg hno2, if_neg (by simp [hcol])]
    show hay_tendencia datos campo umbral = true ↔ _
    rw [hay_tendencia, variacion_total_eq_spec h1 h2, variacion_maxima_eq_spec h2]
    simp only [Option.map_some', leNaN, Bool.or_eq_true, decide_eq_true_eq]
  · rw [edet]
    show variacion_total datosEjC1 "bol2usdt" = some 3
    exact e2
  · rw [edet]
    exact e3

/-- Witness for C1 at the spec's example series. -/
theorem significancia_por_umbral_witness :
    ((detectar_tendencia_significativa datosEjC1 "bol2usdt" 2).hayTendenciaDe = true ↔
      ((2 : ℚ) ≤ |specVariacionTotal datosEjC1 "bol2usdt"| ∨
       (2 : ℚ) ≤ specMaxVariacion datosEjC1 "bol2usdt")) ∧
    (detectar_tendencia_significativa datosEjC1 "bol2usdt" 2).variacionDe = some 3 ∧
    (detectar_tendencia_significativa datosEjC1 "bol2usdt" 2).hayTendenciaDe = true :=
  significancia_por_umbral datosEjC1 "bol2usdt" 2 (by decide) (by decide)

/-- C2 (amended): for every analyzed series, `avg_volatility` is the mean
of the per-bucket sample standard deviations over the buckets holding at
least two values; single-sample buckets (NaN standard deviation) are
skipped from both the sum and the count — they do NOT contribute 0 — and
the average is NaN when no bucket holds two values. -/
theorem volatilidad_promedio_omite_singletons (datos : List Registro) (campo : String) :
    volatilidad_promedio datos campo = volatilidadSpecMultiples datos campo := by
  rw [volatilidad_promedio, volatilidadSpecMultiples, desviacionesPorHora]
  congr 1
  refine filterMap_id_map_eq _ _ _ ?_ ?_ (horasDistintas datos)
  · intro h
    by_cases hlen : (valoresEnHora datos campo h).length < 2
    · have hlen2 : ¬ (2 ≤ (valoresEnHora datos campo h).length) := by omega
      simp [desviacion, varianzaMuestral, hlen, hlen2]
    · have hlen2 : 2 ≤ (valoresEnHora datos campo h).length := by omega
      simp [desviacion, varianzaMuestral, hlen, hlen2]
  · intro h hp
    have hlen : ¬ (valoresEnHora datos campo h).length < 2 := by
      simp only [decide_eq_true_eq] at hp
      omega
    simp [desviacion, varianzaMuestral, hlen]

/-- C2 counterexample: on a series with one three-sample bucket (standard
deviation 1) and one single-sample bucket, the code reports volatility 1
(the NaN bucket is skipped by the pandas mean), not the 1/2 that averaging
the singleton in as 0 would give. -/
theorem volatilidad_no_promedia_singletons :
    volatilidad_promedio datosEjC2 "bol2usdt" ≠
      some (volatilidadSpecTodas datosEjC2 "bol2usdt") := by
  have hh : horasDistintas datosEjC2 = [0, 1] := by decide
  have hv0 : valoresEnHora datosEjC2 "bol2usdt" 0 = [99, 100, 101] := rfl
  have hv1 : valoresEnHora datosEjC2 "bol2usdt" 1 = [105] := rfl
  have hvar : varianzaMuestral [99, 100, 101] = some 1 := by
    norm_num [varianzaMuestral, promedioLista]
  have hd0 : desviacion [99, 100, 101] = some 1 := by
    rw [desviacion, hvar]
    simp only [Option.map_some']
    norm_num [sqrtQ]
  have hd1 : desviacion [105] = none := by
    norm_num [desviacion, varianzaMuestral]
  have hcode : volatilidad_promedio datosEjC2 "bol2usdt" = some 1 := by
    rw [volatilidad_promedio, desviacionesPorHora, hh]
    simp only [List.map_cons, List.map_nil, hv0, hv1, hd0, hd1]
    norm_num [media, promedioLista, List.filterMap]
  have hspec : volatilidadSpecTodas datosEjC2 "bol2usdt" = 1 / 2 := by
    rw [volatilidadSpecTodas, hh]
    simp only [List.map_cons, List.map_nil, hv0, hv1, hd0, hd1]
    norm_num [promedioLista]
  rw [hcode, hspec]
  norm_num

/-- C10: for every series with at least 2 samples all carrying the field,
the trend type placed in the alert details is determined solely by the
sign of the end-to-end variation (upward exactly when it is strictly
positive, downward otherwise, including 0), independently of the fitted
slope — and on `[100, 200, 90, 101]` it disagrees with the slope-based
direction. -/
theorem tipo_tendencia_solo_signo (datos : List Registro) (campo : String) (umbral : ℚ)
    (h1 : 2 ≤ datos.length)
    (h2 : ∀ r ∈ datos, (valorDe campo r).isSome = true) :
    (((detectar_tendencia_significativa datos campo umbral).detallesDe?).map Detalles.trend_type =
      some (if 0 < specVariacionTotal datos campo then "ALCISTA" else "BAJISTA")) ∧
    trendTypeDe datosEjC10 "bol2usdt" = "ALCISTA" ∧
    direccion_tendencia datosEjC10 "bol2usdt" = "bajista" := by
  have hno2 : ¬ datos.length < 2 := by omega
  have hcol := columnaExiste_de_presencia (by
    cases datos
    · simp at h1
    · simp) h2
  have hfa : primer_valor datosEjC10 "bol2usdt" = some 100 := rfl
  have hfb : ultimo_valor datosEjC10 "bol2usdt" = some 101 := rfl
  have f1 : variacion_total datosEjC10 "bol2usdt" = some 1 := by
    simp only [variacion_total, hfa, hfb]
    norm_num [calcular_variacion_porcentual]
  refine ⟨?_, ?_, ?_⟩
  · rw [detectar_tendencia_significativa, if_neg hno2, if_neg (by simp [hcol])]
    show some (detallesDe datos campo umbral).trend_type = _
    rw [detallesDe]
    show some (trendTypeDe datos campo) = _
    rw [trendTypeDe, variacion_total_eq_spec h1 h2]
    simp only [ltNaN, decide_eq_true_eq]
  · rw [trendTypeDe, f1]
    simp only [ltNaN, decide_eq_true_eq]
    rw [if_pos (by norm_num)]
  · have hh : horasDistintas datosEjC10 = [0, 1, 2, 3] := by decide
    have hv0 : valoresEnHora datosEjC10 "bol2usdt" 0 = [100] := rfl
    have hv1 : valoresEnHora datosEjC10 "bol2usdt" 1 = [200] := rfl
    have hv2 : valoresEnHora datosEjC10 "bol2usdt" 2 = [90] := rfl
    have hv3 : valoresEnHora datosEjC10 "bol2usdt" 3 = [101] := rfl
    have hm : mediasPorHora datosEjC10 "bol2usdt" =
        [some 100, some 200, some 90, some 101] := by
      rw [mediasPorHora, hh]
      simp only [List.map_cons, List.map_nil, hv0, hv1, hv2, hv3]
      norm_num [media, promedioLista]
    have hnb : numBuckets datosEjC10 = 4 := by decide
    have hp : pendiente datosEjC10 "bol2usdt" = some (-107 / 10) := by
      rw [pendiente, hnb, hm]
      rw [if_pos (by norm_num)]
      simp only [allSome, Option.map_some']
      norm_num [pendienteOLS, Finset.sum_range_succ, Finset.sum_range_zero,
        List.getD_cons_zero, List.getD_cons_succ]
    rw [direccion_tendencia, hnb, hp]
    rw [if_pos (by norm_num)]
    show (if 0 < (-107 / 10 : ℚ) then "alcista" else "bajista") = "bajista"
    rw [if_neg (by norm_num)]

/-- Witness for C10 at the series `[100, 200, 90, 101]`. -/
theorem tipo_tendencia_solo_signo_witness :
    (((detectar_tendencia_significativa datosEjC10 "bol2usdt" 2).detallesDe?).map Detalles.trend_type =
      some (if 0 < specVariacionTotal datosEjC10 "bol2usdt" then "ALCISTA" else "BAJISTA")) ∧
    trendTypeDe datosEjC10 "bol2usdt" = "ALCISTA" ∧
    direccion_tendencia datosEjC10 "bol2usdt" = "bajista" :=
  tipo_tendencia_solo_signo datosEjC10 "bol2usdt" 2 (by decide) (by decide)

/-- C8 counterexample: a nonempty offer list on which `average_price`
returns 0 (a zero-priced offer), refuting "returns 0 only when the input
list is empty". -/
theorem precio_promedio_cero_lista_no_vacia :
    calcular_precio_promedio (some [ofertaDePrecio 0]) 5 = 0 ∧
    ([ofertaDePrecio 0] : List Oferta) ≠ [] := by
  constructor
  · have ht : ([ofertaDePrecio 0].take 5).map Oferta.precio = [0] := rfl
    have hm : promedioLista ([0] : List ℚ) = 0 := by
      norm_num [promedioLista]
    simp only [calcular_precio_promedio, List.length_cons, List.length_nil, ht, hm]
    rw [if_neg (by norm_num)]
    exact_mod_cast roundTo_intCast 2 0
  · simp

/-- C8 (amended): `average_price` returns 0 on `None` or an empty list,
and on a nonempty list with `n ≥ 1` returns the mean of the price field
over the first `min(n, len)` offers rounded to 2 decimals (which can also
be 0, e.g. for zero-priced offers); on `[{price:10},{price:20}]` with
`n = 5` it returns 15. -/
theorem precio_promedio_redondeado (l : List Oferta) (n : ℕ) (hn : 1 ≤ n) :
    calcular_precio_promedio none n = 0 ∧
    calcular_precio_promedio (some []) n = 0 ∧
    (l ≠ [] → calcular_precio_promedio (some l) n =
      roundTo 2 (promedioLista ((l.take n).map Oferta.precio))) ∧
    calcular_precio_promedio (some [ofertaDePrecio 10, ofertaDePrecio 20]) 5 = 15 := by
  refine ⟨rfl, rfl, ?_, ?_⟩
  · intro hl
    have hlen : ¬ l.length = 0 := by
      simpa [List.length_eq_zero] using hl
    simp [calcular_precio_promedio, hlen]
  · have ht : ([ofertaDePrecio 10, ofertaDePrecio 20].take 5).map Oferta.precio =
        [10, 20] := rfl
    have hm : promedioLista ([10, 20] : List ℚ) = 15 := by
      norm_num [promedioLista]
    simp only [calcular_precio_promedio, List.length_cons, List.length_nil, ht, hm]
    rw [if_neg (by norm_num)]
    exact_mod_cast roundTo_intCast 2 15

/-- C7: for every strictly increasing single-field series with one sample
per hour over `N ≥ 3` consecutive hours, the analyzer's fitted
least-squares slope over the `(bucket_index, bucket_mean)` pairs is
strictly positive and the reported direction is UP (`alcista`). -/
theorem pendiente_positiva_serie_creciente (n : ℕ) (hn : 3 ≤ n) (h0 : ℕ)
    (t : ℕ → ℕ) (y : ℕ → ℚ) (campo : String)
    (ht : ∀ k, k < n → t k / 3600 = h0 + k)
    (hy : ∀ i j, i < j → j < n → y i < y j) :
    pendiente (datosHorarios n t y campo) campo = some (pendienteOLS n y) ∧
    0 < pendienteOLS n y ∧
    direccion_tendencia (datosHorarios n t y campo) campo = "alcista" := by
  have hn2 : 2 ≤ n := by omega
  have hnb : numBuckets (datosHorarios n t y campo) = n := by
    rw [numBuckets, horas_datosHorarios n h0 t y campo ht, List.length_range']
  have hpos : 0 < pendienteOLS n y := pendienteOLS_pos n hn2 y hy
  have hmed := medias_datosHorarios n h0 t y campo ht
  have hlen : ((List.range n).map y).length = n := by simp
  have harg : pendienteOLS ((List.range n).map y).length
      (fun i => ((List.range n).map y).getD i 0) = pendienteOLS n y := by
    rw [hlen]
    have hsum1 : ∑ i ∈ Finset.range n, (i : ℚ) * ((List.range n).map y).getD i 0 =
        ∑ i ∈ Finset.range n, (i : ℚ) * y i :=
      Finset.sum_congr rfl
        (fun i hi => by rw [getD_map_range n y i (Finset.mem_range.mp hi)])
    have hsum2 : ∑ i ∈ Finset.range n, ((List.range n).map y).getD i 0 =
        ∑ i ∈ Finset.range n, y i :=
      Finset.sum_congr rfl
        (fun i hi => getD_map_range n y i (Finset.mem_range.mp hi))
    rw [pendienteOLS, pendienteOLS, hsum1, hsum2]
  have hp : pendiente (datosHorarios n t y campo) campo = some (pendienteOLS n y) := by
    rw [pendiente, hnb, if_pos (by omega), hmed, allSome_map_some]
    show some (pendienteOLS ((List.range n).map y).length
      (fun i => ((List.range n).map y).getD i 0)) = some (pendienteOLS n y)
    rw [harg]
  refine ⟨hp, hpos, ?_⟩
  rw [direccion_tendencia, hnb, if_pos (by omega), hp]
  show (if 0 < pendienteOLS n y then "alcista" else "bajista") = "alcista"
  rw [if_pos hpos]

/-- Witness for C7: values `0, 1, 2` sampled at the start of hours
`0, 1, 2`. -/
theorem pendiente_positiva_serie_creciente_witness :
    pendiente (datosHorarios 3 (fun k => k * 3600) (fun k => (k : ℚ)) "bol2usdt")
      "bol2usdt" = some (pendienteOLS 3 (fun k => (k : ℚ))) ∧
    0 < pendienteOLS 3 (fun k => (k : ℚ)) ∧
    direccion_tendencia (datosHorarios 3 (fun k => k * 3600) (fun k => (k : ℚ)) "bol2usdt")
      "bol2usdt" = "alcista" :=
  pendiente_positiva_serie_creciente 3 (by norm_num) 0 (fun k => k * 3600)
    (fun k => (k : ℚ)) "bol2usdt" (fun k _ => by
      show k * 3600 / 3600 = 0 + k
      omega)
    (fun i j hij _ => by
      show (i : ℚ) < (j : ℚ)
      exact_mod_cast hij)

/-- Witness for C8 (amended) at the spec's two examples. -/
theorem precio_promedio_redondeado_witness :
    calcular_precio_promedio (some [ofertaDePrecio 10, ofertaDePrecio 20]) 5 = 15 ∧
    calcular_precio_promedio (some []) 5 = 0 :=
  ⟨(precio_promedio_redondeado [] 5 (by norm_num)).2.2.2,
   (precio_promedio_redondeado [] 5 (by norm_num)).2.1⟩

end CriptoData
